import Mathlib

/-!
Verification of the grafeas-pgsql storage layer: a shallow embedding of the
filter-expression compiler (go/v1beta1/storage/filter.go), the pagination
cursor (encryptInt64 / decryptInt64) and the PgSQL record store (CreateProject,
DeleteProject, ListProjects, CreateNote, BatchCreateNotes, CreateOccurrence,
BatchCreateOccurrences, DeleteOccurrence, DeleteNote, ListOccurrences,
ListNotes, NewStoreWithCustomConnector), together with theorems settling the
spec's claims about them.

Conventions of the embedding:
* Go strings are Lean `String`s, Go int64 is `Int` (with explicit range checks
  where the code performs them), byte slices are `List Nat`.
* A Go panic is modelled by `Option` with `none` for the panicking run.
* Fallible Go calls return `Except`.
* External collaborators (the CEL filter parser, the fernet library, the SQL
  engine) are modelled at their boundary; each such definition carries a doc
  comment saying what it models.
-/

namespace Pgsql

/-! ## Decimal formatting and parsing (Go strconv.FormatInt / strconv.ParseInt)

The store serializes the pagination watermark with strconv.FormatInt(v, 10)
and reads it back with strconv.ParseInt(s, 10, 64); the filter compiler prints
integer constants with fmt.Sprintf("%d", v), which renders int64 identically.
-/

/-- The ASCII digit character for a value below ten. -/
def digitChar (d : Nat) : Char := Char.ofNat (48 + d)

/-- Decimal digit rendering with explicit fuel (structural, so the kernel can
evaluate it; the wrapper below supplies enough fuel for any value): digits,
most significant first, prepended to an accumulator, mirroring how strconv
renders base-10 digits. -/
def natDigitsGo : Nat → Nat → List Char → List Char
  | 0, _, acc => acc
  | fuel + 1, n, acc =>
    if n < 10 then digitChar n :: acc
    else natDigitsGo fuel (n / 10) (digitChar (n % 10) :: acc)

/-- Decimal digits of a natural number, most significant first, prepended to
an accumulator. -/
def natDigits (n : Nat) (acc : List Char) : List Char := natDigitsGo (n + 1) n acc

/-- Go strconv.FormatUint(n, 10) and fmt.Sprintf("%d", n) for a uint64. -/
def formatNat (n : Nat) : String := String.mk (natDigits n [])

/-- Go strconv.FormatInt(v, 10) and fmt.Sprintf("%d", v) for an int64: decimal
digits with a leading minus sign for negative values. -/
def formatInt64 (v : Int) : String :=
  if v < 0 then String.mk ('-' :: natDigits (-v).toNat [])
  else String.mk (natDigits v.toNat [])

/-- Numeric value of an ASCII digit character. -/
def digitVal (c : Char) : Option Nat :=
  if 48 ≤ c.toNat ∧ c.toNat ≤ 57 then some (c.toNat - 48) else none

/-- Left-to-right accumulation of decimal digits; fails at the first
non-digit character. -/
def parseDigitsAux (acc : Nat) : List Char → Option Nat
  | [] => some acc
  | c :: cs =>
    match digitVal c with
    | some d => parseDigitsAux (acc * 10 + d) cs
    | none => none

/-- Largest int64, 2^63 - 1. -/
def int64Max : Int := 9223372036854775807

/-- Smallest int64, -2^63. -/
def int64Min : Int := -9223372036854775808

/-- Unsigned branch of strconv.ParseInt: at least one digit, all digits,
range-checked against the int64 maximum (Go reports ErrRange beyond it). -/
def parseInt64Pos (l : List Char) : Option Int :=
  if l.isEmpty then none
  else
    match parseDigitsAux 0 l with
    | none => none
    | some n => if (n : Int) ≤ int64Max then some (n : Int) else none

/-- Negative branch of strconv.ParseInt after a leading minus sign. -/
def parseInt64Neg (l : List Char) : Option Int :=
  if l.isEmpty then none
  else
    match parseDigitsAux 0 l with
    | none => none
    | some n => if int64Min ≤ -(n : Int) then some (-(n : Int)) else none

/-- Go strconv.ParseInt(s, 10, 64): an optional sign followed by decimal
digits, rejecting the empty string, stray characters and out-of-range
values. -/
def parseInt64 (s : String) : Option Int :=
  match s.data with
  | [] => none
  | c :: rest =>
    if c = '+' then parseInt64Pos rest
    else if c = '-' then parseInt64Neg rest
    else parseInt64Pos (c :: rest)

/-! ## The filter-expression AST (external parser output)

filter.go consumes the expression tree produced by the grafeas CEL parser:
Call / Select / Ident / Constant nodes. Constants carry int64, uint64 or
string values (the double constant of the proto, printed by Go with %f
floating-point formatting, is outside this embedding; no claim needs it). -/

/-- Go strings.Split for a one-character separator, on character lists:
splitting the empty text gives one empty piece, a separator starts a new
piece, any other character extends the first piece. -/
def splitOnChar (sep : Char) : List Char → List (List Char)
  | [] => [[]]
  | c :: cs =>
    let rest := splitOnChar sep cs
    if c = sep then [] :: rest
    else
      match rest with
      | [] => [[c]]
      | r :: rs => (c :: r) :: rs

/-- Go strings.Split(s, sep) for the one-character separators filter.go uses
("." and the single quote). -/
def goSplit (s : String) (sep : Char) : List String :=
  (splitOnChar sep s.data).map String.mk

/-- Constant node payload of the filter AST. -/
inductive Constant where
  | int64Value (v : Int)
  | uint64Value (v : Nat)
  | stringValue (s : String)
deriving DecidableEq, Repr

/-- Filter expression AST: the node kinds of expr.Expr that filter.go
visits. -/
inductive Expr where
  | call (funcName : String) (args : List Expr)
  | selectField (operand : Expr) (field : String)
  | ident (name : String)
  | constant (c : Constant)

/-- Operator names of the grafeas filtering package (the CEL operator
set referenced by filter.go as operators.Equals and so on). -/
def opEquals : String := "_==_"

def opGreater : String := "_>_"

def opGreaterEquals : String := "_>=_"

def opLess : String := "_<_"

def opLessEquals : String := "_<=_"

def opNotEquals : String := "_!=_"

def opLogicalAnd : String := "_&&_"

def opLogicalOr : String := "_||_"

def opIndex : String := "_[_]"

def opHas : String := "has"

/-! ## The filter compiler (src/go/v1beta1/storage/filter.go) -/

/-- Source FilterSQL.getConstantValue: integers print in decimal, strings are
single-quoted verbatim. -/
def getConstantValue : Constant → String
  | .int64Value v => formatInt64 v
  | .uint64Value n => formatNat n
  | .stringValue s => "'" ++ s ++ "'"

/-- Source formatLikeString: wraps the text between the first pair of single
quotes of the rendered argument in percent wildcards. Go indexes element 1 of
strings.Split(argName, "'"); when the rendering holds no single quote that
index is out of range and the program panics, modelled by none. -/
def formatLikeString (argName : String) : Option String :=
  match (goSplit argName (Char.ofNat 39)).get? 1 with
  | some middle => some ("'%" ++ middle ++ "%'")
  | none => none

/-- Source sqlFromCall's switch over the function name, giving the SQL
operator text ("" for an unsupported function). -/
def sqlOpFor (funcName : String) : String :=
  if funcName = opEquals then "="
  else if funcName = opGreater then ">"
  else if funcName = opGreaterEquals then ">="
  else if funcName = opLess then "<"
  else if funcName = opLessEquals then "<="
  else if funcName = opNotEquals then "!="
  else if funcName = opLogicalAnd then "AND"
  else if funcName = opLogicalOr then "OR"
  else if funcName = opIndex then "["
  else if funcName = opHas then "like"
  else ""

/-- Source makeSQL's loop over the dotted path: every intermediate segment is
rendered with the JSON-producing accessor -> and the terminal segment with the
text-producing accessor ->>, appended to the accumulator (which starts at the
data column). -/
def jsonPath (retVal : String) : List String → String
  | [] => retVal
  | [x] => retVal ++ "->>'" ++ x ++ "'"
  | x :: y :: rest => jsonPath (retVal ++ "->'" ++ x ++ "'") (y :: rest)

mutual

/-- Source FilterSQL.makeSQL. The FilterSQL.selects counter is threaded
explicitly: the select branch increments it around sqlFromSelect and tests it
against zero afterwards; at zero the accumulated dotted path is re-anchored at
the data column through jsonPath. none models a Go panic inside the walk. -/
def makeSQL (selects : Nat) : Expr → Option String
  | .call funcName args => sqlFromCall selects funcName args
  | .selectField operand field =>
    match sqlFromSelect (selects + 1) operand field with
    | none => none
    | some retStr =>
      if selects = 0 then some (jsonPath "data" (goSplit retStr '.'))
      else some retStr
  | .ident name =>
    if selects > 0 then some name
    else some ("data->>'" ++ name ++ "'")
  | .constant c => some (getConstantValue c)

/-- Source FilterSQL.sqlFromSelect: operand rendering and field joined by a
dot. -/
def sqlFromSelect (selects : Nat) (operand : Expr) (field : String) : Option String :=
  match makeSQL selects operand with
  | none => none
  | some s => some (s ++ "." ++ field)

/-- Source FilterSQL.sqlFromCall: renders the arguments, then the indexing
form, the like form (through formatLikeString), the parenthesized binary form,
or the generic call form. Go indexes argNames[0] and argNames[1] in the first
three forms; a missing argument is an out-of-range panic, modelled by none. -/
def sqlFromCall (selects : Nat) (funcName : String) (args : List Expr) : Option String :=
  match makeSQLAll selects args with
  | none => none
  | some argNames =>
    let sqlOp := sqlOpFor funcName
    if sqlOp = "[" then
      match argNames.get? 0, argNames.get? 1 with
      | some a0, some a1 => some (a0 ++ "[" ++ a1 ++ "]")
      | _, _ => none
    else if sqlOp = "like" then
      match argNames.get? 0, argNames.get? 1 with
      | some a0, some a1 =>
        match formatLikeString a1 with
        | none => none
        | some pat => some ("(" ++ a0 ++ " " ++ sqlOp ++ " " ++ pat ++ ")")
      | _, _ => none
    else if sqlOp ≠ "" then
      match argNames.get? 0, argNames.get? 1 with
      | some a0, some a1 => some ("(" ++ a0 ++ " " ++ sqlOp ++ " " ++ a1 ++ ")")
      | _, _ => none
    else some (funcName ++ "(" ++ String.intercalate ", " argNames ++ ")")

/-- Source sqlFromCall's loop collecting fs.makeSQL of every argument. -/
def makeSQLAll (selects : Nat) : List Expr → Option (List String)
  | [] => some []
  | e :: es =>
    match makeSQL selects e, makeSQLAll selects es with
    | some s, some ss => some (s :: ss)
    | _, _ => none

end

/-- Source FilterSQL.ParseFilter: the external parser (passed as a function,
consumed at its boundary) turns the filter text into an AST; a parse error is
logged and the empty string returned, otherwise makeSQL renders the tree
starting with a zero selection depth. -/
def ParseFilter (parse : String → Option Expr) (filter : String) : Option String :=
  match parse filter with
  | none => some ""
  | some e => makeSQL 0 e

/-! ## Base64 and the fernet key (boundary of the external fernet library)

The pagination key is configured as base64 text. Modelled from the spec: a key
must decode to exactly 256 bits; fernet.DecodeKey accepts base64 in the
standard or the URL-safe alphabet and fails otherwise. The base64 decoder
below is RFC 4648: four-character groups, padding only at the end. -/

/-- Standard-alphabet base64 value of a character. -/
def b64StdVal (c : Char) : Option Nat :=
  if 65 ≤ c.toNat ∧ c.toNat ≤ 90 then some (c.toNat - 65)
  else if 97 ≤ c.toNat ∧ c.toNat ≤ 122 then some (c.toNat - 97 + 26)
  else if 48 ≤ c.toNat ∧ c.toNat ≤ 57 then some (c.toNat - 48 + 52)
  else if c = '+' then some 62
  else if c = '/' then some 63
  else none

/-- URL-safe-alphabet base64 value of a character. -/
def b64UrlVal (c : Char) : Option Nat :=
  if 65 ≤ c.toNat ∧ c.toNat ≤ 90 then some (c.toNat - 65)
  else if 97 ≤ c.toNat ∧ c.toNat ≤ 122 then some (c.toNat - 97 + 26)
  else if 48 ≤ c.toNat ∧ c.toNat ≤ 57 then some (c.toNat - 48 + 52)
  else if c = '-' then some 62
  else if c = '_' then some 63
  else none

/-- One four-character base64 group: three bytes, or fewer in a final padded
group ('=' is legal only in the last group, flagged by isLast). -/
def b64Group (val : Char → Option Nat) (a b c d : Char) (isLast : Bool) : Option (List Nat) :=
  match val a, val b with
  | some va, some vb =>
    if c = '=' then
      if d = '=' ∧ isLast then some [va * 4 + vb / 16] else none
    else
      match val c with
      | some vc =>
        if d = '=' then
          if isLast then some [va * 4 + vb / 16, vb % 16 * 16 + vc / 4] else none
        else
          match val d with
          | some vd => some [va * 4 + vb / 16, vb % 16 * 16 + vc / 4, vc % 4 * 64 + vd]
          | none => none
      | none => none
  | _, _ => none

/-- Base64 decoding of a character list: groups of four, nothing left over. -/
def b64Decode (val : Char → Option Nat) : List Char → Option (List Nat)
  | [] => some []
  | a :: b :: c :: d :: rest =>
    match b64Group val a b c d rest.isEmpty with
    | some bytes =>
      match b64Decode val rest with
      | some more => some (bytes ++ more)
      | none => none
    | none => none
  | _ => none

/-- A fernet key: its 32 raw bytes. -/
abbrev FernetKey : Type := List Nat

/-- Modelled from the spec: fernet.DecodeKey of the external fernet library.
A key string is valid iff its base64 decoding (standard alphabet first, then
URL-safe, as the library accepts both) is exactly 256 bits = 32 bytes. -/
def DecodeKey (s : String) : Option FernetKey :=
  match b64Decode b64StdVal s.data with
  | some bytes => if bytes.length = 32 then some bytes else none
  | none =>
    match b64Decode b64UrlVal s.data with
    | some bytes => if bytes.length = 32 then some bytes else none
    | none => none

/-! ## Pagination tokens (boundary of fernet EncryptAndSign / VerifyAndDecrypt)

A page token on the wire is a string; the store hands out either the empty
string or a fernet ciphertext. Modelled from the spec: a fernet token is an
authenticated, timestamped encryption of its payload under one key; any text
that is not such a ciphertext (the empty string included) fails
verification. -/

/-- The wire value of a page token: the empty string, a fernet ciphertext
(carrying the payload, the signing key and the creation timestamp it
authenticates), or any other malformed text. -/
inductive PageToken where
  | empty
  | signed (payload : String) (key : FernetKey) (ts : Nat)
  | malformed (raw : String)
deriving DecidableEq

/-- Modelled from the spec: fernet.EncryptAndSign binds the payload to the
key and the current time. -/
def EncryptAndSign (payload : String) (k : FernetKey) (now : Nat) : PageToken :=
  .signed payload k now

/-- Modelled from the spec: fernet.VerifyAndDecrypt returns the payload only
for a well-formed ciphertext whose key is among the given keys and whose age
at `now` is within the ttl; every other input yields nothing. -/
def VerifyAndDecrypt (tok : PageToken) (ttl : Nat) (keys : List FernetKey) (now : Nat) :
    Option String :=
  match tok with
  | .signed payload k ts =>
    if k ∈ keys ∧ now ≤ ts + ttl then some payload else none
  | _ => none

/-- The freshness window of decryptInt64, time.Hour, in seconds. -/
def tokenTTL : Nat := 3600

/-- Source encryptInt64: decode the store's key, then encrypt and sign the
decimal form of the int64 (strconv.FormatInt(v, 10)) at the current time. -/
def encryptInt64 (v : Int) (key : String) (now : Nat) : Except String PageToken :=
  match DecodeKey key with
  | none => .error "invalid key"
  | some k => .ok (EncryptAndSign (formatInt64 v) k now)

/-- Source decryptInt64: decode the store's key, verify and decrypt the token
within the one-hour freshness window, and parse the payload with
strconv.ParseInt; every failure returns the caller-supplied default, never an
error. -/
def decryptInt64 (encrypted : PageToken) (key : String) (defaultValue : Int) (now : Nat) : Int :=
  match DecodeKey key with
  | none => defaultValue
  | some k =>
    match VerifyAndDecrypt encrypted tokenTTL [k] now with
    | none => defaultValue
    | some bytes =>
      match parseInt64 bytes with
      | none => defaultValue
      | some decryptedValue => decryptedValue

/-! ## Store construction (source NewStoreWithCustomConnector) -/

/-- The PgSQL store state the claims need: the pagination key retained at
construction (the connection-pool handle is environmental). -/
structure PgSQLStore where
  paginationKey : String
deriving DecidableEq

/-- Source NewStoreWithCustomConnector. An empty pagination key is replaced by
a freshly generated one (the generated key and the database connector are
environmental, passed as genKey / pingOk / execOk); a non-empty key must
satisfy fernet.DecodeKey or construction fails with the invalid-key error
before any database interaction; then the database is pinged and the
bootstrap DDL executed, each failure aborting construction. -/
def NewStoreWithCustomConnector (genKey : String) (pingOk execOk : Bool)
    (paginationKey : String) : Except String PgSQLStore :=
  let keyResult : Except String String :=
    if paginationKey = "" then .ok genKey
    else
      match DecodeKey paginationKey with
      | none => .error "invalid pagination key; must be 256-bit URL-safe base64"
      | some _ => .ok paginationKey
  match keyResult with
  | .error e => .error e
  | .ok key =>
    if !pingOk then .error "failed to ping the database server"
    else if !execOk then .error "failed to create tables"
    else .ok { paginationKey := key }

/-! ## The record store (src/unnamed/part_002, package storage) -/

/-- Decidable equality of Except results, so that concrete store outcomes can
be evaluated inside proofs. -/
instance {e a : Type} [DecidableEq e] [DecidableEq a] : DecidableEq (Except e a) := fun x y =>
  match x, y with
  | .error u, .error v =>
    if h : u = v then .isTrue (by rw [h])
    else .isFalse (fun hc => h (Except.noConfusion hc (fun hu => hu)))
  | .error _, .ok _ => .isFalse (fun hc => Except.noConfusion hc)
  | .ok _, .error _ => .isFalse (fun hc => Except.noConfusion hc)
  | .ok u, .ok v =>
    if h : u = v then .isTrue (by rw [h])
    else .isFalse (fun hc => h (Except.noConfusion hc (fun hu => hu)))

/-- The gRPC status errors the store returns (google.golang.org/grpc/codes
with the formatted message). -/
inductive GrpcStatus where
  | notFound (msg : String)
  | alreadyExists (msg : String)
  | invalidArgument (msg : String)
  | internal (msg : String)
deriving DecidableEq, Repr

/-- A database error as the Go code observes it: a PostgreSQL driver error
(*pq.Error) carrying its SQLSTATE code, or an error of any other type from
database/sql (connection failure, cancelled context, scan failure, ...). -/
inductive DBError where
  | pq (code : String)
  | other (msg : String)
deriving DecidableEq, Repr

/-- Go name.FormatProject(pID): the caller-visible project name. -/
def FormatProject (pID : String) : String := "projects/" ++ pID

/-- Go name.FormatNote(pID, nID). -/
def FormatNote (pID nID : String) : String :=
  "projects/" ++ pID ++ "/notes/" ++ nID

/-- Go fmt %q applied to a name in a status message: the name in double
quotes (escaping of exotic characters is outside the embedding; the names the
claims use need none). -/
def quoted (s : String) : String := "\"" ++ s ++ "\""

/-- Source PgSQLStore.CreateProject. The insert's outcome is environmental
(none = success); the Go type assertion err, ok := err.(*pq.Error) then maps
a pq unique-violation (SQLSTATE 23505) to AlreadyExists and any other pq
error to Internal — while an error of any other type fails the assertion, so
the function falls through and returns the project with no error. -/
def CreateProject (execErr : Option DBError) (pID : String) {α : Type} (p : α) :
    Except GrpcStatus α :=
  match execErr with
  | some (.pq code) =>
    if code = "23505" then
      .error (.alreadyExists ("Project with name " ++ quoted pID ++ " already exists"))
    else .error (.internal "Failed to insert Project in database")
  | some (.other _) => .ok p
  | none => .ok p

/-- Source PgSQLStore.CreateNote: the note's name is set to
FormatNote(pID, nID) and the insert outcome is classified by the same
err.(*pq.Error) type assertion as CreateProject. The note is modelled by its
name. -/
def CreateNote (execErr : Option DBError) (pID nID : String) : Except GrpcStatus String :=
  let nName := FormatNote pID nID
  match execErr with
  | some (.pq code) =>
    if code = "23505" then
      .error (.alreadyExists ("Note with name " ++ quoted nName ++ " already exists"))
    else .error (.internal "Failed to insert Note in database")
  | some (.other _) => .ok nName
  | none => .ok nName

/-- Source PgSQLStore.CreateOccurrence: a UUID is generated (environmental,
passed in as uuidResult), the occurrence is named
projects/{pID}/occurrences/{uuid}, the referenced note name is parsed
(name.ParseNote, environmental; failure is InvalidArgument), then the insert
outcome is classified by the same err.(*pq.Error) type assertion as
CreateProject. The occurrence is modelled by its name. -/
def CreateOccurrence (uuidResult : Except Unit String)
    (parsedNote : Option (String × String)) (execErr : Option DBError)
    (pID : String) : Except GrpcStatus String :=
  match uuidResult with
  | .error _ => .error (.internal "Failed to generate UUID")
  | .ok id =>
    let oName := "projects/" ++ pID ++ "/occurrences/" ++ id
    match parsedNote with
    | none => .error (.invalidArgument "Invalid note name")
    | some _ =>
      match execErr with
      | some (.pq code) =>
        if code = "23505" then
          .error (.alreadyExists ("Occurrence with name " ++ quoted oName ++ " already exists"))
        else .error (.internal "Failed to insert Occurrence in database")
      | some (.other _) => .ok oName
      | none => .ok oName

/-- Source PgSQLStore.DeleteProject: a database error is Internal, zero
affected rows is NotFound with the formatted name, at least one affected row
succeeds. (A RowsAffected() failure yields the same Internal status as an
execution failure and is folded into the error case.) -/
def DeleteProject (exec : Except DBError Nat) (pID : String) : Except GrpcStatus Unit :=
  match exec with
  | .error _ => .error (.internal "Failed to delete Project from database")
  | .ok count =>
    if count = 0 then
      .error (.notFound ("Project with name " ++ quoted (FormatProject pID) ++ " does not Exist"))
    else .ok ()

/-- Source PgSQLStore.DeleteOccurrence: same shape as DeleteProject with the
occurrence messages and the (pID, oID) business key. -/
def DeleteOccurrence (exec : Except DBError Nat) (pID oID : String) : Except GrpcStatus Unit :=
  match exec with
  | .error _ => .error (.internal "Failed to delete Occurrence from database")
  | .ok count =>
    if count = 0 then
      .error (.notFound ("Occurrence with name " ++ quoted pID ++ "/" ++ quoted oID ++ " does not Exist"))
    else .ok ()

/-- Source PgSQLStore.DeleteNote: same shape as DeleteProject with the note
messages and the (pID, nID) business key. -/
def DeleteNote (exec : Except DBError Nat) (pID nID : String) : Except GrpcStatus Unit :=
  match exec with
  | .error _ => .error (.internal "Failed to delete Note from database")
  | .ok count =>
    if count = 0 then
      .error (.notFound ("Note with name " ++ quoted pID ++ "/" ++ quoted nID ++ " does not Exist"))
    else .ok ()

/-- Source PgSQLStore.BatchCreateOccurrences: the loop calls CreateOccurrence
per item (each item's whole environment — uuid, note parse, insert outcome —
is summarized by that item's result, passed in positionally), silently skips
every failed item and collects the created ones; errs is the empty list built
before the loop and never appended to. -/
def BatchCreateOccurrences (results : List (Except GrpcStatus String)) :
    List String × List GrpcStatus :=
  match results with
  | [] => ([], [])
  | r :: rest =>
    match r with
    | .error _ => BatchCreateOccurrences rest
    | .ok occ =>
      let (created, errs) := BatchCreateOccurrences rest
      (occ :: created, errs)

/-- Modelled from the spec: the notes table's unique(project_id, note_id)
constraint (the bootstrap DDL is not among the repository's staged files).
Inserting an existing key reports the pq unique-violation SQLSTATE 23505 and
leaves the table unchanged; a fresh key is inserted and succeeds. -/
def insertNote (db : List (String × String)) (pID nID : String) :
    List (String × String) × Option DBError :=
  if (pID, nID) ∈ db then (db, some (.pq "23505"))
  else ((pID, nID) :: db, none)

/-- Source PgSQLStore.BatchCreateNotes: iterate the (nID, note) collection
(Go map iteration order is environmental, so the collection is a list in that
order), call CreateNote against the modelled notes table, silently skip every
item whose create fails and collect the rest; errs is the empty list built
before the loop and never appended to. -/
def BatchCreateNotes (db : List (String × String)) (pID : String) :
    List String → List String × List GrpcStatus
  | [] => ([], [])
  | nID :: rest =>
    let (db2, execErr) := insertNote db pID nID
    match CreateNote execErr pID nID with
    | .error _ => BatchCreateNotes db2 pID rest
    | .ok note =>
      let (created, errs) := BatchCreateNotes db2 pID rest
      (note :: created, errs)

/-! ## List queries (the SQL statement constants are repository code not among
the staged files; their execution is modelled from the spec, §4.3 and §6, and
from the query prefixes the repository's mock tests expect) -/

/-- A projects row: serial id and unique name. -/
structure ProjectRow where
  id : Int
  name : String
deriving DecidableEq, Repr

/-- An occurrences or notes row as the list statements read it: serial id,
owning project, serialized payload. -/
structure DataRow where
  id : Int
  projectId : String
  data : String
deriving DecidableEq, Repr

/-- Modelled from the spec and the SQL grammar: how the engine reads the
fragment the store interpolates after the base WHERE conditions. The empty
fragment leaves the query unfiltered; " AND " followed by a nonempty
predicate restricts rows by that predicate text; " AND " followed by nothing
leaves a dangling AND before ORDER BY, a syntax error. (The store emits no
other shape.) -/
def filterClause (fq : String) : Option (Option String) :=
  match fq.data with
  | [] => some none
  | ' ' :: 'A' :: 'N' :: 'D' :: ' ' :: rest =>
    if rest.isEmpty then none else some (some (String.mk rest))
  | _ => none

/-- The last value left in Go's re-assigned scan variable: the last element,
or the zero value when no row was scanned. -/
def lastScanned (ids : List Int) : Int := ids.foldl (fun _ i => i) 0

/-- MAX(id) as SQL computes it: NULL (none) over no rows, which the Go code's
Scan into an int64 turns into an error. -/
def maxIdOf : List Int → Option Int
  | [] => none
  | x :: xs => some (xs.foldl max x)

/-- Modelled from the spec: execution of the listProjects statement,
SELECT id, name FROM projects WHERE id > $1%s ORDER BY id ASC LIMIT $2 (the
prefix is what the repository's mock tests expect). A malformed interpolation
is an engine error; otherwise the rows above the watermark matching the
predicate (evalPred is the engine's semantics of a predicate text over a
row), in table order (ids are serial, so ascending), limited to pageSize. -/
def runListProjectsQuery (db : List ProjectRow) (evalPred : String → ProjectRow → Bool)
    (filterQuery : String) (watermark pageSize : Int) : Except Unit (List ProjectRow) :=
  match filterClause filterQuery with
  | none => .error ()
  | some predText =>
    let keep := fun (r : ProjectRow) =>
      decide (watermark < r.id) &&
        (match predText with
         | none => true
         | some pred => evalPred pred r)
    .ok ((db.filter keep).take pageSize.toNat)

/-- Modelled from the spec: execution of the projectsMaxID statement,
SELECT MAX(id) FROM projects (as the repository's mock tests expect: no WHERE
clause of its own). ListProjects wraps a non-empty filter as
"... WHERE <filterQuery>" although the fragment begins with " AND ", so every
filtered max query is a syntax error; the unfiltered one scans MAX(id), which
is NULL over an empty table (a scan error). -/
def runProjectsMaxQuery (db : List ProjectRow) (filterQuery : String) : Except Unit Int :=
  if filterQuery = "" then
    match maxIdOf (db.map (fun r => r.id)) with
    | none => .error ()
    | some m => .ok m
  else .error ()

/-- Modelled from the spec: execution of the listOccurrences / listNotes
statements, SELECT id, data FROM <table> WHERE project_id = $1 AND id > $2%s
ORDER BY id ASC LIMIT $3: project scope, watermark, optional predicate,
limit. -/
def runScopedListQuery (db : List DataRow) (evalPred : String → DataRow → Bool)
    (pID : String) (filterQuery : String) (watermark pageSize : Int) :
    Except Unit (List DataRow) :=
  match filterClause filterQuery with
  | none => .error ()
  | some predText =>
    let keep := fun (r : DataRow) =>
      decide (r.projectId = pID) && decide (watermark < r.id) &&
        (match predText with
         | none => true
         | some pred => evalPred pred r)
    .ok ((db.filter keep).take pageSize.toNat)

/-- Modelled from the spec: execution of the occurrenceMaxID / notesMaxID
statements, SELECT MAX(id) FROM <table> WHERE project_id = $1%s — here the
%s sits after an existing WHERE condition, so the fragment's leading " AND "
is well-formed. NULL over no matching rows is a scan error. -/
def runScopedMaxQuery (db : List DataRow) (evalPred : String → DataRow → Bool)
    (pID : String) (filterQuery : String) : Except Unit Int :=
  match filterClause filterQuery with
  | none => .error ()
  | some predText =>
    let keep := fun (r : DataRow) =>
      decide (r.projectId = pID) &&
        (match predText with
         | none => true
         | some pred => evalPred pred r)
    match maxIdOf ((db.filter keep).map (fun r => r.id)) with
    | none => .error ()
    | some m => .ok m

/-- The filter fragment a List operation builds: empty for an empty filter,
otherwise " AND " glued to ParseFilter's rendering. none models the request
crashing on a makeSQL panic. -/
def filterQueryOf (parse : String → Option Expr) (filter : String) : Option String :=
  if filter = "" then some ""
  else
    match ParseFilter parse filter with
    | none => none
    | some sql => some (" AND " ++ sql)

/-- proto.UnmarshalText over each scanned payload (the unmarshaller is
environmental); the first failure aborts. -/
def scanAll {α : Type} (um : String → Option α) : List String → Option (List α)
  | [] => some []
  | d :: ds =>
    match um d, scanAll um ds with
    | some o, some os => some (o :: os)
    | _, _ => none

/-- Source PgSQLStore.ListProjects: build the filter fragment, decrypt the
watermark (default 0), run the page query (a failure is Internal), return the
empty token on an empty page, otherwise run the max query (a failure is
Internal) and hand out an encrypted token for the last scanned id only when
it is below the max. The outer none models the request crashing on a makeSQL
panic inside ParseFilter. -/
def ListProjects (db : List ProjectRow) (evalPred : String → ProjectRow → Bool)
    (parse : String → Option Expr) (key : String) (now : Nat)
    (filter : String) (pageSize : Int) (pageToken : PageToken) :
    Option (Except GrpcStatus (List ProjectRow × PageToken)) :=
  match filterQueryOf parse filter with
  | none => none
  | some filterQuery =>
    let id := decryptInt64 pageToken key 0 now
    match runListProjectsQuery db evalPred filterQuery id pageSize with
    | .error _ => some (.error (.internal "Failed to list Projects from database"))
    | .ok rows =>
      if rows.isEmpty then some (.ok (rows, .empty))
      else
        match runProjectsMaxQuery db filterQuery with
        | .error _ => some (.error (.internal "Failed to query max project id from database"))
        | .ok maxID =>
          let lastID := lastScanned (rows.map (fun r => r.id))
          if maxID ≤ lastID then some (.ok (rows, .empty))
          else
            match encryptInt64 lastID key now with
            | .error _ => some (.error (.internal "Failed to paginate projects"))
            | .ok encryptedPage => some (.ok (rows, encryptedPage))

/-- Source PgSQLStore.ListOccurrences: as ListProjects but scoped to a
project, with each row's payload unmarshalled (a failure is Internal) and the
occurrence max query. -/
def ListOccurrences {α : Type} (db : List DataRow) (evalPred : String → DataRow → Bool)
    (um : String → Option α) (parse : String → Option Expr) (key : String) (now : Nat)
    (pID : String) (filter : String) (pageSize : Int) (pageToken : PageToken) :
    Option (Except GrpcStatus (List α × PageToken)) :=
  match filterQueryOf parse filter with
  | none => none
  | some filterQuery =>
    let id := decryptInt64 pageToken key 0 now
    match runScopedListQuery db evalPred pID filterQuery id pageSize with
    | .error _ => some (.error (.internal "Failed to list Occurrences from database"))
    | .ok rows =>
      match scanAll um (rows.map (fun r => r.data)) with
      | none => some (.error (.internal "Failed to unmarshal Occurrence from database"))
      | some os =>
        if os.isEmpty then some (.ok (os, .empty))
        else
          match runScopedMaxQuery db evalPred pID filterQuery with
          | .error _ =>
            some (.error (.internal "Failed to query max occurrence id from database"))
          | .ok maxID =>
            let lastID := lastScanned (rows.map (fun r => r.id))
            if maxID ≤ lastID then some (.ok (os, .empty))
            else
              match encryptInt64 lastID key now with
              | .error _ => some (.error (.internal "Failed to paginate occurrences"))
              | .ok encryptedPage => some (.ok (os, encryptedPage))

/-- Source PgSQLStore.ListNotes: identical orchestration to ListOccurrences
over the notes table, with the note messages. -/
def ListNotes {α : Type} (db : List DataRow) (evalPred : String → DataRow → Bool)
    (um : String → Option α) (parse : String → Option Expr) (key : String) (now : Nat)
    (pID : String) (filter : String) (pageSize : Int) (pageToken : PageToken) :
    Option (Except GrpcStatus (List α × PageToken)) :=
  match filterQueryOf parse filter with
  | none => none
  | some filterQuery =>
    let id := decryptInt64 pageToken key 0 now
    match runScopedListQuery db evalPred pID filterQuery id pageSize with
    | .error _ => some (.error (.internal "Failed to list Notes from database"))
    | .ok rows =>
      match scanAll um (rows.map (fun r => r.data)) with
      | none => some (.error (.internal "Failed to unmarshal Note from database"))
      | some ns =>
        if ns.isEmpty then some (.ok (ns, .empty))
        else
          match runScopedMaxQuery db evalPred pID filterQuery with
          | .error _ => some (.error (.internal "Failed to query max note id from database"))
          | .ok maxID =>
            let lastID := lastScanned (rows.map (fun r => r.id))
            if maxID ≤ lastID then some (.ok (ns, .empty))
            else
              match encryptInt64 lastID key now with
              | .error _ => some (.error (.internal "Failed to paginate notes"))
              | .ok encryptedPage => some (.ok (ns, encryptedPage))

/-- The pagination key the repository's own tests configure; used by the
concrete witnesses below. -/
def testKey : String := "nQi0NzMjerFtlMnbylnWzMrIlNCsuyzeq8LnBEkgxrk="

/-- The 32 bytes the test pagination key decodes to. -/
def testKeyBytes : FernetKey := (DecodeKey testKey).getD []

/-! ## Round trip of the decimal watermark encoding -/

theorem natDigitsGo_append : ∀ (fuel n : Nat) (acc : List Char), n < fuel →
    natDigitsGo fuel n acc = natDigitsGo fuel n [] ++ acc := by
  intro fuel
  induction fuel with
  | zero => intro n acc h; omega
  | succ fuel ih =>
    intro n acc h
    by_cases h10 : n < 10
    · simp [natDigitsGo, h10]
    · have hlt : n / 10 < fuel := by
        have hself : n / 10 < n := Nat.div_lt_self (by omega) (by omega)
        omega
      simp only [natDigitsGo, if_neg h10]
      rw [ih (n / 10) (digitChar (n % 10) :: acc) hlt, ih (n / 10) [digitChar (n % 10)] hlt]
      simp

theorem natDigitsGo_head : ∀ (fuel n : Nat), n < fuel →
    ∃ d rest, natDigitsGo fuel n [] = digitChar d :: rest ∧ d < 10 := by
  intro fuel
  induction fuel with
  | zero => intro n h; omega
  | succ fuel ih =>
    intro n h
    by_cases h10 : n < 10
    · exact ⟨n, [], by simp [natDigitsGo, h10], h10⟩
    · have hlt : n / 10 < fuel := by
        have hself : n / 10 < n := Nat.div_lt_self (by omega) (by omega)
        omega
      obtain ⟨d, rest, hEq, hdl⟩ := ih (n / 10) hlt
      refine ⟨d, rest ++ [digitChar (n % 10)], ?_, hdl⟩
      simp only [natDigitsGo, if_neg h10]
      rw [natDigitsGo_append fuel (n / 10) _ hlt, hEq]
      simp

theorem natDigits_head (n : Nat) :
    ∃ d rest, natDigits n [] = digitChar d :: rest ∧ d < 10 := by
  rw [natDigits]
  exact natDigitsGo_head (n + 1) n (Nat.lt_succ_self n)

theorem digitVal_digitChar (d : Nat) (h : d < 10) : digitVal (digitChar d) = some d := by
  interval_cases d <;> rfl

theorem parseDigitsAux_natDigitsGo : ∀ (fuel n : Nat), n < fuel →
    ∀ (acc : Nat) (rest : List Char),
    parseDigitsAux acc (natDigitsGo fuel n [] ++ rest)
      = parseDigitsAux (acc * 10 ^ (natDigitsGo fuel n []).length + n) rest := by
  intro fuel
  induction fuel with
  | zero => intro n h; omega
  | succ fuel ih =>
    intro n h acc rest
    by_cases h10 : n < 10
    · simp only [natDigitsGo, if_pos h10]
      simp [parseDigitsAux, digitVal_digitChar n h10]
    · have hlt : n / 10 < fuel := by
        have hself : n / 10 < n := Nat.div_lt_self (by omega) (by omega)
        omega
      have hsplit : natDigitsGo (fuel + 1) n []
          = natDigitsGo fuel (n / 10) [] ++ [digitChar (n % 10)] := by
        simp only [natDigitsGo, if_neg h10]
        exact natDigitsGo_append fuel (n / 10) _ hlt
      rw [hsplit, List.append_assoc, ih (n / 10) hlt acc ([digitChar (n % 10)] ++ rest)]
      have hm : n % 10 < 10 := Nat.mod_lt _ (by omega)
      simp only [List.singleton_append, parseDigitsAux, digitVal_digitChar _ hm]
      congr 1
      rw [List.length_append, List.length_singleton]
      calc (acc * 10 ^ (natDigitsGo fuel (n / 10) []).length + n / 10) * 10 + n % 10
          = acc * (10 ^ (natDigitsGo fuel (n / 10) []).length * 10)
              + (n / 10 * 10 + n % 10) := by
            ring
        _ = acc * 10 ^ ((natDigitsGo fuel (n / 10) []).length + 1) + n := by
            rw [pow_succ]
            congr 1
            omega

theorem parseDigitsAux_roundtrip (n : Nat) : parseDigitsAux 0 (natDigits n []) = some n := by
  have h := parseDigitsAux_natDigitsGo (n + 1) n (Nat.lt_succ_self n) 0 []
  simpa [natDigits, parseDigitsAux] using h

theorem digitChar_ne_sign (d : Nat) (h : d < 10) :
    digitChar d ≠ '+' ∧ digitChar d ≠ '-' := by
  interval_cases d <;> exact ⟨by decide, by decide⟩

/-- Round trip of the watermark serialization: strconv.ParseInt inverts
strconv.FormatInt on every value in the int64 range. -/
theorem parseInt64_formatInt64 (v : Int) (hlo : int64Min ≤ v) (hhi : v ≤ int64Max) :
    parseInt64 (formatInt64 v) = some v := by
  by_cases hv : v < 0
  · have hdata : (formatInt64 v).data = '-' :: natDigits (-v).toNat [] := by
      simp [formatInt64, hv]
    obtain ⟨d, rest, hEq, hlt⟩ := natDigits_head (-v).toNat
    rw [parseInt64, hdata]
    simp only [reduceIte, Char.reduceEq]
    rw [parseInt64Neg, hEq]
    simp only [List.isEmpty_cons, Bool.false_eq_true, if_false]
    rw [← hEq, parseDigitsAux_roundtrip]
    have hcast : ((-v).toNat : Int) = -v := Int.toNat_of_nonneg (by omega)
    simp only [hcast]
    rw [if_pos (by omega)]
    congr 1
    omega
  · have hdata : (formatInt64 v).data = natDigits v.toNat [] := by
      simp [formatInt64, hv]
    obtain ⟨d, rest, hEq, hlt⟩ := natDigits_head v.toNat
    obtain ⟨hne1, hne2⟩ := digitChar_ne_sign d hlt
    rw [parseInt64, hdata, hEq]
    simp only [if_neg hne1, if_neg hne2]
    rw [parseInt64Pos]
    simp only [List.isEmpty_cons, Bool.false_eq_true, if_false]
    rw [← hEq, parseDigitsAux_roundtrip]
    have hcast : (v.toNat : Int) = v := Int.toNat_of_nonneg (by omega)
    simp only [hcast]
    rw [if_pos hhi]

/-! ## The claims -/

/-- C1: compiling the filter resource.uri="a.rpm" OR
resource.uri="https://a.com/b/c/a.rpm" (its AST as the external CEL parser
produces it: a disjunction of equalities over the select resource.uri) yields
exactly the expected SQL string — every binary operation fully parenthesized,
the intermediate path segment rendered with the JSON-producing accessor ->
and the terminal segment with the text-producing accessor ->>, anchored at
the data column. -/
theorem c1_compile_resource_uri_disjunction :
    makeSQL 0 (.call opLogicalOr
      [.call opEquals [.selectField (.ident "resource") "uri",
                       .constant (.stringValue "a.rpm")],
       .call opEquals [.selectField (.ident "resource") "uri",
                       .constant (.stringValue "https://a.com/b/c/a.rpm")]])
      = some "((data->'resource'->>'uri' = 'a.rpm') OR (data->'resource'->>'uri' = 'https://a.com/b/c/a.rpm'))" := by
  simp [makeSQL, sqlFromCall, makeSQLAll, sqlFromSelect, sqlOpFor, getConstantValue, jsonPath,
    opLogicalOr, opEquals, opGreater, opGreaterEquals, opLess, opLessEquals, opNotEquals,
    opLogicalAnd, opIndex, opHas]

/-- C10: a has-call whose second argument renders without any single quote —
here the integer literal 5, rendered "5" — splits at single quotes into one
piece only, so the index 1 the Go code takes into that split is out of range
and compilation panics (modelled none) instead of returning a predicate or an
error. -/
theorem c10_has_integer_argument_panics :
    goSplit (getConstantValue (.int64Value 5)) (Char.ofNat 39) = ["5"] ∧
    formatLikeString (getConstantValue (.int64Value 5)) = none ∧
    makeSQL 0 (.call opHas [.ident "a", .constant (.int64Value 5)]) = none := by
  have h5 : getConstantValue (.int64Value 5) = "5" := by
    simp [getConstantValue, formatInt64, natDigits]
    rfl
  refine ⟨by rw [h5]; rfl, by rw [formatLikeString, h5]; rfl, ?_⟩
  simp [makeSQL, sqlFromCall, makeSQLAll, sqlFromSelect, sqlOpFor, h5,
    opLogicalOr, opEquals, opGreater, opGreaterEquals, opLess, opLessEquals, opNotEquals,
    opLogicalAnd, opIndex, opHas]
  rfl

/-- C2: for every int64 id and every valid 256-bit pagination key, decoding a
token produced by encoding the id with that key, within the one-hour
freshness window, returns exactly the id, regardless of the caller-supplied
default value. -/
theorem c2_decrypt_encrypt_roundtrip (v : Int) (key : String) (d : Int) (tEnc tDec : Nat)
    (hlo : int64Min ≤ v) (hhi : v ≤ int64Max)
    (hkey : (DecodeKey key).isSome = true)
    (hfresh : tDec ≤ tEnc + tokenTTL) :
    ∃ tok, encryptInt64 v key tEnc = .ok tok ∧ decryptInt64 tok key d tDec = v := by
  obtain ⟨k, hk⟩ := Option.isSome_iff_exists.mp hkey
  refine ⟨.signed (formatInt64 v) k tEnc, ?_, ?_⟩
  · simp [encryptInt64, hk, EncryptAndSign]
  · simp [decryptInt64, hk, VerifyAndDecrypt, hfresh, parseInt64_formatInt64 v hlo hhi]

/-- Witness for C2 at the repository's own test key, id 42, encoding time 0,
decoding time 100, caller default 7. -/
theorem c2_decrypt_encrypt_roundtrip_witness :
    ∃ tok, encryptInt64 42 testKey 0 = .ok tok ∧ decryptInt64 tok testKey 7 100 = 42 :=
  c2_decrypt_encrypt_roundtrip 42 testKey 7 0 100 (by decide) (by decide) (by decide)
    (by decide)

/-- C6: decryptInt64 of a token older than the one-hour freshness window, of
a token encrypted under a different key than the store's, of malformed text,
or of the empty token, returns the caller-supplied default watermark; by its
type (it returns a plain int64) it never returns an error. -/
theorem c6_decrypt_failures_default (payload : String) (k : FernetKey) (ts now : Nat)
    (key : String) (d : Int) (raw : String)
    (hkey : (DecodeKey key).isSome = true) :
    (ts + tokenTTL < now → decryptInt64 (.signed payload k ts) key d now = d) ∧
    (some k ≠ DecodeKey key → decryptInt64 (.signed payload k ts) key d now = d) ∧
    decryptInt64 (.malformed raw) key d now = d ∧
    decryptInt64 .empty key d now = d := by
  obtain ⟨k2, hk2⟩ := Option.isSome_iff_exists.mp hkey
  refine ⟨?_, ?_, ?_, ?_⟩
  · intro hstale
    have hc : ¬ (now ≤ ts + tokenTTL) := by omega
    simp [decryptInt64, hk2, VerifyAndDecrypt, hc]
  · intro hdiff
    have hne : k ≠ k2 := by
      intro hEq
      exact hdiff (by rw [hEq, hk2])
    simp [decryptInt64, hk2, VerifyAndDecrypt, hne]
  · simp [decryptInt64, hk2, VerifyAndDecrypt]
  · simp [decryptInt64, hk2, VerifyAndDecrypt]

/-- Witness for C6: a token signed at time 0 under the all-zero key, decoded
at time 3601 (one second past the window) under the test key, a malformed
token, and the empty token, all fall back to the caller default 9. -/
theorem c6_decrypt_failures_default_witness :
    decryptInt64 (.signed "5" (List.replicate 32 0) 0) testKey 9 3601 = 9 ∧
    decryptInt64 (.signed "5" (List.replicate 32 0) 0) testKey 9 0 = 9 ∧
    decryptInt64 (.malformed "not-a-fernet-token") testKey 9 0 = 9 ∧
    decryptInt64 .empty testKey 9 0 = 9 := by
  have h := c6_decrypt_failures_default "5" (List.replicate 32 0) 0 3601 testKey 9
    "not-a-fernet-token" (by decide)
  have h0 := c6_decrypt_failures_default "5" (List.replicate 32 0) 0 0 testKey 9
    "not-a-fernet-token" (by decide)
  exact ⟨h.1 (by decide), h0.2.1 (by decide), h0.2.2.1, h0.2.2.2⟩

/-- C7: store construction with a non-empty pagination key that
fernet.DecodeKey rejects (it does not decode to exactly 256 bits) fails at
construction time with the invalid-pagination-key error, whatever the
generated key and the database environment; no store is returned. -/
theorem c7_invalid_pagination_key_fails_construction (genKey : String)
    (pingOk execOk : Bool) (key : String)
    (hne : key ≠ "") (hbad : DecodeKey key = none) :
    NewStoreWithCustomConnector genKey pingOk execOk key
      = .error "invalid pagination key; must be 256-bit URL-safe base64" := by
  simp [NewStoreWithCustomConnector, hne, hbad]

/-- Witness for C7 at the spec's literal input INVALID_VALUE. -/
theorem c7_invalid_pagination_key_witness :
    NewStoreWithCustomConnector "" true true "INVALID_VALUE"
      = .error "invalid pagination key; must be 256-bit URL-safe base64" :=
  c7_invalid_pagination_key_fails_construction "" true true "INVALID_VALUE"
    (by decide) (by decide)

/-- C5 (code_bug, evaluated at the failing input): the pq classification of
the Create operations is as claimed — SQLSTATE 23505 gives AlreadyExists and
any other pq error gives Internal, for Project, Note and Occurrence — but an
insert error that is NOT a *pq.Error (a plain connection or context error)
fails the err.(*pq.Error) type assertion, so the create reports success with
the entity, contradicting the claim that the operation succeeds only when the
insert succeeds. -/
theorem c5_create_error_classification :
    CreateProject (some (.pq "23505")) "p1" "projects/p1"
      = .error (.alreadyExists "Project with name \"p1\" already exists") ∧
    CreateProject (some (.pq "53300")) "p1" "projects/p1"
      = .error (.internal "Failed to insert Project in database") ∧
    CreateNote (some (.pq "23505")) "p1" "n1"
      = .error (.alreadyExists "Note with name \"projects/p1/notes/n1\" already exists") ∧
    CreateNote (some (.pq "53300")) "p1" "n1"
      = .error (.internal "Failed to insert Note in database") ∧
    CreateOccurrence (.ok "u1") (some ("p1", "n1")) (some (.pq "23505")) "p1"
      = .error (.alreadyExists "Occurrence with name \"projects/p1/occurrences/u1\" already exists") ∧
    CreateProject (some (.other "driver: bad connection")) "p1" "projects/p1"
      = .ok "projects/p1" ∧
    CreateNote (some (.other "driver: bad connection")) "p1" "n1"
      = .ok "projects/p1/notes/n1" ∧
    CreateOccurrence (.ok "u1") (some ("p1", "n1")) (some (.other "driver: bad connection")) "p1"
      = .ok "projects/p1/occurrences/u1" :=
  ⟨rfl, rfl, rfl, rfl, rfl, rfl, rfl, rfl⟩

/-- C8: for every Delete operation (Project, Occurrence, Note): when the
delete affects zero rows the operation fails with NotFound naming the
business key, and when it affects at least one row the operation succeeds
with no error. -/
theorem c8_delete_rowcount_semantics (pID oID nID : String) (n : Nat) (hn : 0 < n) :
    DeleteProject (.ok 0) pID
      = .error (.notFound ("Project with name " ++ quoted (FormatProject pID) ++ " does not Exist")) ∧
    DeleteProject (.ok n) pID = .ok () ∧
    DeleteOccurrence (.ok 0) pID oID
      = .error (.notFound ("Occurrence with name " ++ quoted pID ++ "/" ++ quoted oID ++ " does not Exist")) ∧
    DeleteOccurrence (.ok n) pID oID = .ok () ∧
    DeleteNote (.ok 0) pID nID
      = .error (.notFound ("Note with name " ++ quoted pID ++ "/" ++ quoted nID ++ " does not Exist")) ∧
    DeleteNote (.ok n) pID nID = .ok () := by
  have hz : n ≠ 0 := by omega
  simp [DeleteProject, DeleteOccurrence, DeleteNote, hz]

/-- Witness for C8 at the keys (p1, o1, n1) with one affected row. -/
theorem c8_delete_rowcount_semantics_witness :
    DeleteProject (.ok 0) "p1"
      = .error (.notFound "Project with name \"projects/p1\" does not Exist") ∧
    DeleteProject (.ok 1) "p1" = .ok () ∧
    DeleteOccurrence (.ok 0) "p1" "o1"
      = .error (.notFound "Occurrence with name \"p1\"/\"o1\" does not Exist") ∧
    DeleteNote (.ok 1) "p1" "n1" = .ok () := by
  have h := c8_delete_rowcount_semantics "p1" "o1" "n1" 1 (by decide)
  exact ⟨h.1, h.2.1, h.2.2.1, h.2.2.2.2.2⟩

/-! Helper lemmas for the batch-create claims. -/

theorem batchOcc_errs_nil (results : List (Except GrpcStatus String)) :
    (BatchCreateOccurrences results).2 = [] := by
  induction results with
  | nil => rfl
  | cons r rest ih =>
    cases r with
    | error e => simpa [BatchCreateOccurrences] using ih
    | ok s => simp [BatchCreateOccurrences, ih]

theorem batchOcc_all_ok_length (results : List (Except GrpcStatus String))
    (h : ∀ r ∈ results, r.isOk = true) :
    (BatchCreateOccurrences results).1.length = results.length := by
  induction results with
  | nil => rfl
  | cons r rest ih =>
    have hr := h r (List.mem_cons_self r rest)
    cases r with
    | error e => simp [Except.isOk, Except.toBool] at hr
    | ok s =>
      have ihr := ih (fun x hx => h x (List.mem_cons_of_mem _ hx))
      simp [BatchCreateOccurrences, ihr]

theorem batchNotes_all_fresh (pID : String) (l : List String) :
    ∀ db : List (String × String), l.Nodup → (∀ x ∈ l, (pID, x) ∉ db) →
      (BatchCreateNotes db pID l).1.length = l.length ∧
      (BatchCreateNotes db pID l).2 = [] := by
  induction l with
  | nil => exact fun db _ _ => ⟨rfl, rfl⟩
  | cons x rest ih =>
    intro db hnodup hfresh
    have hx : (pID, x) ∉ db := hfresh x (List.mem_cons_self x rest)
    obtain ⟨hxrest, hrestnodup⟩ := List.nodup_cons.mp hnodup
    have ihr := ih ((pID, x) :: db) hrestnodup (fun y hy => by
      simp only [List.mem_cons, not_or]
      refine ⟨?_, hfresh y (List.mem_cons_of_mem _ hy)⟩
      intro hEq
      have hyx : y = x := by
        have := congrArg Prod.snd hEq
        simpa using this
      exact hxrest (hyx ▸ hy))
    simp [BatchCreateNotes, insertNote, hx, CreateNote, ihr.1, ihr.2]

/-- C9: for both batch-create operations, a batch of N items of which exactly
one conflicts with an existing row returns the N-1 successfully created items
and an empty error list, with no per-item error surfaced for the skipped
duplicate. For occurrences the batch is given with the one failing item's
position explicit (each item's create outcome summarizes its environment);
for notes the duplicate is an (project, note-id) key already present in the
modelled table. -/
theorem c9_batch_create_skips_duplicate :
    (∀ (pre post : List (Except GrpcStatus String)) (e : GrpcStatus),
      (∀ r ∈ pre, r.isOk = true) → (∀ r ∈ post, r.isOk = true) →
      (BatchCreateOccurrences (pre ++ .error e :: post)).1.length
          = (pre ++ .error e :: post).length - 1 ∧
      (BatchCreateOccurrences (pre ++ .error e :: post)).2 = []) ∧
    (∀ (db : List (String × String)) (pID : String) (pre post : List String) (dup : String),
      (pre ++ dup :: post).Nodup →
      (pID, dup) ∈ db →
      (∀ x ∈ pre ++ post, (pID, x) ∉ db) →
      (BatchCreateNotes db pID (pre ++ dup :: post)).1.length
          = (pre ++ dup :: post).length - 1 ∧
      (BatchCreateNotes db pID (pre ++ dup :: post)).2 = []) := by
  constructor
  · intro pre post e hpre hpost
    refine ⟨?_, batchOcc_errs_nil _⟩
    induction pre with
    | nil =>
      have hlen := batchOcc_all_ok_length post hpost
      simp [BatchCreateOccurrences, hlen]
    | cons r rest ih =>
      have hr := hpre r (List.mem_cons_self r rest)
      cases r with
      | error e2 => simp [Except.isOk, Except.toBool] at hr
      | ok s =>
        have ihr := ih (fun x hx => hpre x (List.mem_cons_of_mem _ hx))
        simp only [List.cons_append, BatchCreateOccurrences, List.append_eq]
        simp only [List.length_append, List.length_cons]
        rw [ihr]
        simp only [List.length_append, List.length_cons]
        omega
  · intro db pID pre post dup
    induction pre generalizing db with
    | nil =>
      intro hnodup hdup hfresh
      obtain ⟨hdnp, hpostnodup⟩ := List.nodup_cons.mp hnodup
      have hall := batchNotes_all_fresh pID post db hpostnodup
        (fun x hx => hfresh x (by simpa using hx))
      constructor
      · simp [BatchCreateNotes, insertNote, hdup, CreateNote, hall.1]
      · simp [BatchCreateNotes, insertNote, hdup, CreateNote, hall.2]
    | cons x rest ih =>
      intro hnodup hdup hfresh
      have hx : (pID, x) ∉ db := hfresh x (by simp)
      rw [List.cons_append] at hnodup
      obtain ⟨hxrest, hrestnodup⟩ := List.nodup_cons.mp hnodup
      have ihr := ih ((pID, x) :: db) hrestnodup (by
          simpa [List.mem_cons] using List.mem_cons_of_mem (pID, x) hdup)
        (fun y hy => by
          simp only [List.mem_cons, not_or]
          refine ⟨?_, hfresh y (List.mem_cons_of_mem _ hy)⟩
          intro hEq
          have hyx : y = x := by
            have := congrArg Prod.snd hEq
            simpa using this
          subst hyx
          rcases List.mem_append.mp hy with hcase | hcase
          · exact hxrest (List.mem_append.mpr (Or.inl hcase))
          · exact hxrest (List.mem_append.mpr (Or.inr (List.mem_cons_of_mem _ hcase))))
      constructor
      · simp only [List.cons_append, BatchCreateNotes, insertNote, if_neg hx, CreateNote]
        simp [ihr.1, List.length_append]
        omega
      · simp only [List.cons_append, BatchCreateNotes, insertNote, if_neg hx, CreateNote]
        simp [ihr.2]

/-- Witness for C9: three occurrences of which the middle create conflicts
give two created items and no errors; three notes of which n2 already exists
in the table give two created notes and no errors. -/
theorem c9_batch_create_skips_duplicate_witness :
    (BatchCreateOccurrences
        [.ok "a", .error (.alreadyExists "dup"), .ok "b"]).1.length = 2 ∧
    (BatchCreateOccurrences
        [.ok "a", .error (.alreadyExists "dup"), .ok "b"]).2 = [] ∧
    (BatchCreateNotes [("p", "n2")] "p" ["n1", "n2", "n3"]).1.length = 2 ∧
    (BatchCreateNotes [("p", "n2")] "p" ["n1", "n2", "n3"]).2 = [] := by
  have h := c9_batch_create_skips_duplicate
  have ho := h.1 [.ok "a"] [.ok "b"] (.alreadyExists "dup")
    (by intro r hr; simp at hr; simp [hr, Except.isOk, Except.toBool])
    (by intro r hr; simp at hr; simp [hr, Except.isOk, Except.toBool])
  have hn := h.2 [("p", "n2")] "p" ["n1"] ["n3"] "n2" (by decide) (by decide) (by decide)
  exact ⟨ho.1, ho.2, hn.1, hn.2⟩

/-- C4 (amended): a non-empty filter string that fails to parse makes the
filter compiler log the problem and yield the empty predicate — no compile
error is surfaced — but the List operation then glues " AND " onto that empty
predicate, the interpolated query carries a dangling AND, the database
rejects it, and the operation returns Internal: the caller gets an error, not
an unfiltered listing. -/
theorem c4_parse_failure_yields_internal (db : List ProjectRow)
    (evalPred : String → ProjectRow → Bool) (parse : String → Option Expr)
    (key : String) (now : Nat) (filter : String) (pageSize : Int) (tok : PageToken)
    (hne : filter ≠ "") (hparse : parse filter = none) :
    ParseFilter parse filter = some "" ∧
    ListProjects db evalPred parse key now filter pageSize tok
      = some (.error (.internal "Failed to list Projects from database")) := by
  have hpf : ParseFilter parse filter = some "" := by simp [ParseFilter, hparse]
  have h1 : filterQueryOf parse filter = some " AND " := by
    simp only [filterQueryOf, if_neg hne, hpf]
    rfl
  have h2 : filterClause " AND " = none := rfl
  refine ⟨hpf, ?_⟩
  simp [ListProjects, h1, runListProjectsQuery, h2]

/-- Counterexample for C4 as stated: with one project in the table, the
unparsable filter "(((" (the external parser rejects it, modelled by the
parse function returning none) makes ListProjects return Internal, while the
claim promises the unfiltered listing — which the same call with an empty
filter produces. -/
theorem c4_parse_failure_counterexample :
    ListProjects [⟨1, "projects/p1"⟩] (fun _ _ => true) (fun _ => none) testKey 0
        "(((" 10 .empty
      = some (.error (.internal "Failed to list Projects from database")) ∧
    ListProjects [⟨1, "projects/p1"⟩] (fun _ _ => true) (fun _ => none) testKey 0
        "" 10 .empty
      = some (.ok ([⟨1, "projects/p1"⟩], .empty)) := by
  constructor
  · exact (c4_parse_failure_yields_internal [⟨1, "projects/p1"⟩] (fun _ _ => true)
      (fun _ => none) testKey 0 "(((" 10 .empty (by decide) rfl).2
  · decide

/-- Witness for C4 (amended) at the unparsable filter "(((" over a one-row
table. -/
theorem c4_parse_failure_yields_internal_witness :
    ParseFilter (fun _ => none) "(((" = some "" ∧
    ListProjects [⟨1, "projects/p1"⟩] (fun _ _ => true) (fun _ => none) testKey 3
        "(((" 10 .empty
      = some (.error (.internal "Failed to list Projects from database")) :=
  c4_parse_failure_yields_internal [⟨1, "projects/p1"⟩] (fun _ _ => true)
    (fun _ => none) testKey 3 "(((" 10 .empty (by decide) rfl

/-! Helper lemmas for the next-token claims. -/

theorem runProjectsMaxQuery_ok_unfiltered (db : List ProjectRow) (fq : String) (m : Int)
    (h : runProjectsMaxQuery db fq = .ok m) : fq = "" := by
  by_cases hfq : fq = ""
  · exact hfq
  · simp [runProjectsMaxQuery, hfq] at h

theorem encryptInt64_ok_shape (v : Int) (key : String) (now : Nat) (tok : PageToken)
    (h : encryptInt64 v key now = .ok tok) :
    ∃ kb, DecodeKey key = some kb ∧ tok = .signed (formatInt64 v) kb now := by
  cases hdk : DecodeKey key with
  | none => simp [encryptInt64, hdk] at h
  | some kb =>
    refine ⟨kb, rfl, ?_⟩
    simp only [encryptInt64, hdk, EncryptAndSign, Except.ok.injEq] at h
    exact h.symm

/-- Shared next-token reasoning for ListProjects: a successful listing has an
empty token exactly on an empty page or when the last scanned id reaches the
max; a fresh token is the encryption of the last scanned id. -/
theorem listProjects_token_spec (db : List ProjectRow)
    (evalPred : String → ProjectRow → Bool) (parse : String → Option Expr)
    (key : String) (now : Nat) (filter : String) (pageSize : Int) (tok : PageToken)
    (rows : List ProjectRow) (otok : PageToken)
    (h : ListProjects db evalPred parse key now filter pageSize tok
      = some (.ok (rows, otok))) :
    (rows = [] → otok = .empty) ∧
    (rows ≠ [] →
      ∃ m, runProjectsMaxQuery db "" = .ok m ∧
        (otok ≠ .empty ↔ lastScanned (rows.map (fun r => r.id)) < m) ∧
        (lastScanned (rows.map (fun r => r.id)) < m →
          ∃ kb, DecodeKey key = some kb ∧
            otok = .signed (formatInt64 (lastScanned (rows.map (fun r => r.id)))) kb now)) := by
  cases hfq : filterQueryOf parse filter with
  | none => simp [ListProjects, hfq] at h
  | some fq =>
  simp only [ListProjects, hfq] at h
  cases hpq : runListProjectsQuery db evalPred fq (decryptInt64 tok key 0 now) pageSize with
  | error u => simp [hpq] at h
  | ok rows0 =>
  simp only [hpq] at h
  by_cases hempty : rows0.isEmpty
  · rw [if_pos hempty] at h
    simp only [Option.some.injEq, Except.ok.injEq, Prod.mk.injEq] at h
    obtain ⟨hr, ht⟩ := h
    subst hr
    refine ⟨fun _ => ht.symm, fun hne => ?_⟩
    exact absurd (List.isEmpty_iff.mp hempty) hne
  · rw [if_neg hempty] at h
    cases hmax : runProjectsMaxQuery db fq with
    | error u => simp [hmax] at h
    | ok m =>
    simp only [hmax] at h
    have hfq0 : fq = "" := runProjectsMaxQuery_ok_unfiltered db fq m hmax
    subst hfq0
    by_cases hle : m ≤ lastScanned (rows0.map (fun r => r.id))
    · rw [if_pos hle] at h
      simp only [Option.some.injEq, Except.ok.injEq, Prod.mk.injEq] at h
      obtain ⟨hr, ht⟩ := h
      subst hr
      refine ⟨fun _ => ht.symm, fun _ => ⟨m, hmax, ?_, ?_⟩⟩
      · rw [← ht]
        exact iff_of_false (by simp) (not_lt.mpr hle)
      · intro hlt
        exact absurd hlt (not_lt.mpr hle)
    · rw [if_neg hle] at h
      cases henc : encryptInt64 (lastScanned (rows0.map (fun r => r.id))) key now with
      | error u => simp [henc] at h
      | ok tok2 =>
      simp only [henc] at h
      simp only [Option.some.injEq, Except.ok.injEq, Prod.mk.injEq] at h
      obtain ⟨hr, ht⟩ := h
      subst hr
      obtain ⟨kb, hkb, htok⟩ := encryptInt64_ok_shape _ _ _ _ henc
      constructor
      · intro h0
        rw [h0] at hempty
        exact absurd rfl hempty
      · intro _
        refine ⟨m, hmax, ?_, ?_⟩
        · rw [← ht, htok]
          exact iff_of_true (by simp) (not_le.mp hle)
        · intro _
          exact ⟨kb, hkb, by rw [← ht, htok]⟩

/-- Shared next-token reasoning for ListOccurrences, with the page rows and
max id named by the model queries the operation ran. -/
theorem listOccurrences_token_spec (α : Type) (db : List DataRow)
    (evalPred : String → DataRow → Bool) (um : String → Option α)
    (parse : String → Option Expr) (key : String) (now : Nat)
    (pID filter : String) (pageSize : Int) (tok : PageToken)
    (ns : List α) (otok : PageToken)
    (h : ListOccurrences db evalPred um parse key now pID filter pageSize tok
      = some (.ok (ns, otok))) :
    (ns = [] → otok = .empty) ∧
    (ns ≠ [] →
      ∃ fq rows m,
        filterQueryOf parse filter = some fq ∧
        runScopedListQuery db evalPred pID fq (decryptInt64 tok key 0 now) pageSize
          = .ok rows ∧
        scanAll um (rows.map (fun r => r.data)) = some ns ∧
        runScopedMaxQuery db evalPred pID fq = .ok m ∧
        (otok ≠ .empty ↔ lastScanned (rows.map (fun r => r.id)) < m) ∧
        (lastScanned (rows.map (fun r => r.id)) < m →
          ∃ kb, DecodeKey key = some kb ∧
            otok = .signed (formatInt64 (lastScanned (rows.map (fun r => r.id)))) kb now)) := by
  cases hfq : filterQueryOf parse filter with
  | none => simp [ListOccurrences, hfq] at h
  | some fq =>
  simp only [ListOccurrences, hfq] at h
  cases hpq : runScopedListQuery db evalPred pID fq (decryptInt64 tok key 0 now) pageSize with
  | error u => simp [hpq] at h
  | ok rows0 =>
  simp only [hpq] at h
  cases hscan : scanAll um (rows0.map (fun r => r.data)) with
  | none => simp [hscan] at h
  | some os =>
  simp only [hscan] at h
  by_cases hempty : os.isEmpty
  · rw [if_pos hempty] at h
    simp only [Option.some.injEq, Except.ok.injEq, Prod.mk.injEq] at h
    obtain ⟨hr, ht⟩ := h
    subst hr
    refine ⟨fun _ => ht.symm, fun hne => ?_⟩
    exact absurd (List.isEmpty_iff.mp hempty) hne
  · rw [if_neg hempty] at h
    cases hmax : runScopedMaxQuery db evalPred pID fq with
    | error u => simp [hmax] at h
    | ok m =>
    simp only [hmax] at h
    by_cases hle : m ≤ lastScanned (rows0.map (fun r => r.id))
    · rw [if_pos hle] at h
      simp only [Option.some.injEq, Except.ok.injEq, Prod.mk.injEq] at h
      obtain ⟨hr, ht⟩ := h
      subst hr
      refine ⟨fun _ => ht.symm, fun _ => ⟨fq, rows0, m, rfl, hpq, hscan, hmax, ?_, ?_⟩⟩
      · rw [← ht]
        exact iff_of_false (by simp) (not_lt.mpr hle)
      · intro hlt
        exact absurd hlt (not_lt.mpr hle)
    · rw [if_neg hle] at h
      cases henc : encryptInt64 (lastScanned (rows0.map (fun r => r.id))) key now with
      | error u => simp [henc] at h
      | ok tok2 =>
      simp only [henc] at h
      simp only [Option.some.injEq, Except.ok.injEq, Prod.mk.injEq] at h
      obtain ⟨hr, ht⟩ := h
      subst hr
      obtain ⟨kb, hkb, htok⟩ := encryptInt64_ok_shape _ _ _ _ henc
      constructor
      · intro h0
        rw [h0] at hempty
        exact absurd rfl hempty
      · intro _
        refine ⟨fq, rows0, m, rfl, hpq, hscan, hmax, ?_, ?_⟩
        · rw [← ht, htok]
          exact iff_of_true (by simp) (not_le.mp hle)
        · intro _
          exact ⟨kb, hkb, by rw [← ht, htok]⟩

/-- Shared next-token reasoning for ListNotes: the same orchestration as
ListOccurrences over the notes table. -/
theorem listNotes_token_spec (α : Type) (db : List DataRow)
    (evalPred : String → DataRow → Bool) (um : String → Option α)
    (parse : String → Option Expr) (key : String) (now : Nat)
    (pID filter : String) (pageSize : Int) (tok : PageToken)
    (ns : List α) (otok : PageToken)
    (h : ListNotes db evalPred um parse key now pID filter pageSize tok
      = some (.ok (ns, otok))) :
    (ns = [] → otok = .empty) ∧
    (ns ≠ [] →
      ∃ fq rows m,
        filterQueryOf parse filter = some fq ∧
        runScopedListQuery db evalPred pID fq (decryptInt64 tok key 0 now) pageSize
          = .ok rows ∧
        scanAll um (rows.map (fun r => r.data)) = some ns ∧
        runScopedMaxQuery db evalPred pID fq = .ok m ∧
        (otok ≠ .empty ↔ lastScanned (rows.map (fun r => r.id)) < m) ∧
        (lastScanned (rows.map (fun r => r.id)) < m →
          ∃ kb, DecodeKey key = some kb ∧
            otok = .signed (formatInt64 (lastScanned (rows.map (fun r => r.id)))) kb now)) := by
  cases hfq : filterQueryOf parse filter with
  | none => simp [ListNotes, hfq] at h
  | some fq =>
  simp only [ListNotes, hfq] at h
  cases hpq : runScopedListQuery db evalPred pID fq (decryptInt64 tok key 0 now) pageSize with
  | error u => simp [hpq] at h
  | ok rows0 =>
  simp only [hpq] at h
  cases hscan : scanAll um (rows0.map (fun r => r.data)) with
  | none => simp [hscan] at h
  | some os =>
  simp only [hscan] at h
  by_cases hempty : os.isEmpty
  · rw [if_pos hempty] at h
    simp only [Option.some.injEq, Except.ok.injEq, Prod.mk.injEq] at h
    obtain ⟨hr, ht⟩ := h
    subst hr
    refine ⟨fun _ => ht.symm, fun hne => ?_⟩
    exact absurd (List.isEmpty_iff.mp hempty) hne
  · rw [if_neg hempty] at h
    cases hmax : runScopedMaxQuery db evalPred pID fq with
    | error u => simp [hmax] at h
    | ok m =>
    simp only [hmax] at h
    by_cases hle : m ≤ lastScanned (rows0.map (fun r => r.id))
    · rw [if_pos hle] at h
      simp only [Option.some.injEq, Except.ok.injEq, Prod.mk.injEq] at h
      obtain ⟨hr, ht⟩ := h
      subst hr
      refine ⟨fun _ => ht.symm, fun _ => ⟨fq, rows0, m, rfl, hpq, hscan, hmax, ?_, ?_⟩⟩
      · rw [← ht]
        exact iff_of_false (by simp) (not_lt.mpr hle)
      · intro hlt
        exact absurd hlt (not_lt.mpr hle)
    · rw [if_neg hle] at h
      cases henc : encryptInt64 (lastScanned (rows0.map (fun r => r.id))) key now with
      | error u => simp [henc] at h
      | ok tok2 =>
      simp only [henc] at h
      simp only [Option.some.injEq, Except.ok.injEq, Prod.mk.injEq] at h
      obtain ⟨hr, ht⟩ := h
      subst hr
      obtain ⟨kb, hkb, htok⟩ := encryptInt64_ok_shape _ _ _ _ henc
      constructor
      · intro h0
        rw [h0] at hempty
        exact absurd rfl hempty
      · intro _
        refine ⟨fq, rows0, m, rfl, hpq, hscan, hmax, ?_, ?_⟩
        · rw [← ht, htok]
          exact iff_of_true (by simp) (not_le.mp hle)
        · intro _
          exact ⟨kb, hkb, by rw [← ht, htok]⟩

/-- For a filtered ListProjects call whose page comes back non-empty, the max
query is malformed (the code wraps the " AND "-prefixed fragment in a second
WHERE) and the call fails with Internal. -/
theorem listProjects_filtered_max_internal (db : List ProjectRow)
    (evalPred : String → ProjectRow → Bool) (parse : String → Option Expr)
    (key : String) (now : Nat) (filter : String) (pageSize : Int) (tok : PageToken)
    (fq : String) (rows : List ProjectRow)
    (hfq : filterQueryOf parse filter = some fq) (hne : fq ≠ "")
    (hpq : runListProjectsQuery db evalPred fq (decryptInt64 tok key 0 now) pageSize
      = .ok rows)
    (hrows : rows ≠ []) :
    ListProjects db evalPred parse key now filter pageSize tok
      = some (.error (.internal "Failed to query max project id from database")) := by
  have hempty : rows.isEmpty = false := by
    cases rows with
    | nil => exact absurd rfl hrows
    | cons a l => rfl
  simp [ListProjects, hfq, hpq, hempty, runProjectsMaxQuery, hne]

/-- C3 (amended): for every successful List (Projects, Occurrences, Notes):
an empty page yields the empty next-token, and a non-empty page yields a
non-empty next-token — the encryption of the last returned row's id — exactly
when that last id is strictly below the maximum id among rows matching the
same predicate (for a successful ListProjects the success of its max query
forces the unfiltered query). The amendment: for ListProjects with a
non-empty filter whose page is non-empty, the max-id query is malformed (the
code wraps the " AND "-prefixed fragment in a second WHERE) and the call
fails with Internal instead of emitting the token. -/
theorem c3_list_next_token_semantics :
    (∀ (db : List ProjectRow) (evalPred : String → ProjectRow → Bool)
        (parse : String → Option Expr) (key : String) (now : Nat)
        (filter : String) (pageSize : Int) (tok : PageToken)
        (rows : List ProjectRow) (otok : PageToken),
      ListProjects db evalPred parse key now filter pageSize tok
          = some (.ok (rows, otok)) →
      (rows = [] → otok = .empty) ∧
      (rows ≠ [] →
        ∃ m, runProjectsMaxQuery db "" = .ok m ∧
          (otok ≠ .empty ↔ lastScanned (rows.map (fun r => r.id)) < m) ∧
          (lastScanned (rows.map (fun r => r.id)) < m →
            ∃ kb, DecodeKey key = some kb ∧
              otok = .signed (formatInt64 (lastScanned (rows.map (fun r => r.id)))) kb now))) ∧
    (∀ (α : Type) (db : List DataRow) (evalPred : String → DataRow → Bool)
        (um : String → Option α) (parse : String → Option Expr) (key : String)
        (now : Nat) (pID filter : String) (pageSize : Int) (tok : PageToken)
        (ns : List α) (otok : PageToken),
      ListOccurrences db evalPred um parse key now pID filter pageSize tok
          = some (.ok (ns, otok)) →
      (ns = [] → otok = .empty) ∧
      (ns ≠ [] →
        ∃ fq rows m,
          filterQueryOf parse filter = some fq ∧
          runScopedListQuery db evalPred pID fq (decryptInt64 tok key 0 now) pageSize
            = .ok rows ∧
          scanAll um (rows.map (fun r => r.data)) = some ns ∧
          runScopedMaxQuery db evalPred pID fq = .ok m ∧
          (otok ≠ .empty ↔ lastScanned (rows.map (fun r => r.id)) < m) ∧
          (lastScanned (rows.map (fun r => r.id)) < m →
            ∃ kb, DecodeKey key = some kb ∧
              otok = .signed (formatInt64 (lastScanned (rows.map (fun r => r.id)))) kb now))) ∧
    (∀ (α : Type) (db : List DataRow) (evalPred : String → DataRow → Bool)
        (um : String → Option α) (parse : String → Option Expr) (key : String)
        (now : Nat) (pID filter : String) (pageSize : Int) (tok : PageToken)
        (ns : List α) (otok : PageToken),
      ListNotes db evalPred um parse key now pID filter pageSize tok
          = some (.ok (ns, otok)) →
      (ns = [] → otok = .empty) ∧
      (ns ≠ [] →
        ∃ fq rows m,
          filterQueryOf parse filter = some fq ∧
          runScopedListQuery db evalPred pID fq (decryptInt64 tok key 0 now) pageSize
            = .ok rows ∧
          scanAll um (rows.map (fun r => r.data)) = some ns ∧
          runScopedMaxQuery db evalPred pID fq = .ok m ∧
          (otok ≠ .empty ↔ lastScanned (rows.map (fun r => r.id)) < m) ∧
          (lastScanned (rows.map (fun r => r.id)) < m →
            ∃ kb, DecodeKey key = some kb ∧
              otok = .signed (formatInt64 (lastScanned (rows.map (fun r => r.id)))) kb now))) ∧
    (∀ (db : List ProjectRow) (evalPred : String → ProjectRow → Bool)
        (parse : String → Option Expr) (key : String) (now : Nat)
        (filter : String) (pageSize : Int) (tok : PageToken)
        (fq : String) (rows : List ProjectRow),
      filterQueryOf parse filter = some fq → fq ≠ "" →
      runListProjectsQuery db evalPred fq (decryptInt64 tok key 0 now) pageSize
          = .ok rows →
      rows ≠ [] →
      ListProjects db evalPred parse key now filter pageSize tok
        = some (.error (.internal "Failed to query max project id from database"))) :=
  ⟨listProjects_token_spec, listOccurrences_token_spec, listNotes_token_spec,
    listProjects_filtered_max_internal⟩

/-- Counterexample for C3 as stated: a filtered ListProjects call over three
matching rows whose page of two rows is non-empty with last id 2 strictly
below the matching maximum 3 — where the claim demands a non-empty
next-token — returns Internal instead. The parse function stands for the
external parser producing the filter's AST. -/
theorem c3_filtered_projects_counterexample :
    ListProjects [⟨1, "a"⟩, ⟨2, "b"⟩, ⟨3, "c"⟩] (fun _ _ => true)
        (fun _ => some (.ident "x")) testKey 0 "x" 2 .empty
      = some (.error (.internal "Failed to query max project id from database")) ∧
    runListProjectsQuery [⟨1, "a"⟩, ⟨2, "b"⟩, ⟨3, "c"⟩] (fun _ _ => true)
        " AND data->>'x'" 0 2 = .ok [⟨1, "a"⟩, ⟨2, "b"⟩] ∧
    lastScanned [1, 2] = 2 ∧
    maxIdOf [1, 2, 3] = some 3 := by
  refine ⟨?_, by decide, by decide, by decide⟩
  have hpf : ParseFilter (fun _ => some (Expr.ident "x")) "x" = some "data->>'x'" := by
    simp [ParseFilter, makeSQL]
  have h1 : filterQueryOf (fun _ => some (Expr.ident "x")) "x" = some " AND data->>'x'" := by
    simp only [filterQueryOf, if_neg (by decide : ¬ ("x" : String) = ""), hpf]
    rfl
  simp only [ListProjects, h1]
  decide

/-- Witness for C3 (amended), from two concrete unfiltered ListProjects
calls over the test key: a one-row table at pageSize 1 ends the listing
(last id equals the max, token empty), a two-row table at pageSize 1 returns
a non-empty token signed over the last id 1. -/
theorem c3_list_next_token_semantics_witness :
    (∃ m, runProjectsMaxQuery [⟨1, "projects/p1"⟩] "" = .ok m ∧
      ((PageToken.empty ≠ PageToken.empty) ↔ lastScanned [1] < m)) ∧
    ((PageToken.signed (formatInt64 1) testKeyBytes 0 ≠ PageToken.empty) ↔
      lastScanned [1] < 2) := by
  have h1 := (c3_list_next_token_semantics.1 [⟨1, "projects/p1"⟩] (fun _ _ => true)
    (fun _ => none) testKey 0 "" 1 .empty [⟨1, "projects/p1"⟩] .empty (by decide)).2
    (by decide)
  have h2 := (c3_list_next_token_semantics.1 [⟨1, "projects/p1"⟩, ⟨2, "projects/p2"⟩]
    (fun _ _ => true) (fun _ => none) testKey 0 "" 1 .empty [⟨1, "projects/p1"⟩]
    (.signed (formatInt64 1) testKeyBytes 0) (by decide)).2 (by decide)
  obtain ⟨m1, hm1, hiff1, _⟩ := h1
  obtain ⟨m2, hm2, hiff2, _⟩ := h2
  have hm2v : m2 = 2 := by
    have : runProjectsMaxQuery [⟨1, "projects/p1"⟩, ⟨2, "projects/p2"⟩] "" = .ok 2 := by
      decide
    rw [this] at hm2
    exact (Except.ok.inj hm2.symm)
  constructor
  · exact ⟨m1, hm1, by simpa using hiff1⟩
  · rw [hm2v] at hiff2
    simpa using hiff2
end Pgsql
